import Mathlib

/-!
Verification of the markdown preview render pass of the Shiba repository.

The development shallowly embeds the two render-tree interpreters of the
repository:

* `RenderTreeToReact` (from `src/v2/web/markdown.tsx`): the asynchronous
  React variant.  Its awaited collaborator calls resolve in JavaScript
  microtask order while every piece of tracker state (table alignment,
  footnote collection, match counting, last-modified handle) is mutated in
  the synchronous prefix of each `case` branch, so the pass is embedded as a
  sequential state-passing interpreter in document order.  React elements
  are embedded as `RNode`, with `props.children` embedded three-way as
  `RChildren`: `cnone` for an element whose JSX has no child expression
  (`props.children` is `undefined`), `single` for an element given exactly
  one bare child (JSX with one literal child, or `React.createElement`
  spread over a one-element list — `props.children` is the child itself,
  not an array), and `list` for a child-expression array.  The distinction
  carries the behavior of the footnote back-reference push
  `(lastElementOf(children)?.props?.children ?? children).push(backref)`:
  `cnone` falls back to the top-level list, `list` is pushed into, and
  `single` makes `.push` throw a TypeError that rejects the whole footnote
  phase — embedded as `none`.  React `key` props and constant inline style
  objects are reconciliation and presentation hints with no structural
  content and are not modelled.

* `ParseTreeRenderer` (from `src/v2/web/markdown.ts`): the legacy
  synchronous DOM variant, embedded over `DNode`.  Appending children to a
  DOM `Text` node throws `HierarchyRequestError`; the embedding returns
  `none` at such a point.

The element vocabulary `Elem` is the union of the two wire shapes; kinds
the legacy switch has no case for fall into its logged default branch,
exactly as such an element would behave there.
-/

/-- A table column alignment value from the wire shape
(`'left' | 'center' | 'right'`); the wire also allows `null`, embedded as
`Option Align = none`. -/
inductive Align where
  | left
  | center
  | right
deriving DecidableEq, Repr

/-- `RenderTreeTableAlign` / `ParseTreeTableAlign`: an alignment or `null`. -/
abbrev TAlign := Option Align

/-- The table alignment tracker state (`TableState` in both source files):
the declared alignment sequence and the zero-based column cursor. -/
structure TableState where
  aligns : List TAlign
  index : Nat
deriving DecidableEq, Repr

/-- A render tree element (`RenderTreeElem` / `ParseTreeElem`): either a raw
text scalar or a tagged node with kind-specific fields and, on container
kinds, an ordered child list.  The final constructor `unknown` stands for
any element whose discriminant matches no case of the dispatch switch. -/
inductive Elem where
  | text (s : String)
  | p (c : List Elem)
  | h (level : Nat) (id : Option String) (c : List Elem)
  | a (auto : Bool) (href : String) (title : Option String) (c : List Elem)
  | img (src : String) (title : Option String) (c : List Elem)
  | br
  | blockquote (c : List Elem)
  | em (c : List Elem)
  | strong (c : List Elem)
  | del (c : List Elem)
  | pre (c : List Elem)
  | code (lang : Option String) (c : List Elem)
  | ol (start : Option Int) (c : List Elem)
  | ul (c : List Elem)
  | li (c : List Elem)
  | taskList (c : List Elem)
  | emoji (name : String) (c : List Elem)
  | table (align : List TAlign) (c : List Elem)
  | thead (c : List Elem)
  | tbody (c : List Elem)
  | tr (c : List Elem)
  | th (c : List Elem)
  | td (c : List Elem)
  | checkbox (checked : Bool)
  | hr
  | fnRef (id : Nat)
  | fnDef (id : Nat) (c : List Elem)
  | math (inline : Bool) (expr : String)
  | html (raw : String)
  | modified
  | matchText (c : List Elem)
  | matchCurrent (c : List Elem)
  | matchStart (c : List Elem)
  | matchCurrentStart (c : List Elem)
  | unknown (kind : String)

mutual
/-- A produced React node: a text child, an element (tag, props as
key-value pairs, an optional attached `ref` identity, and its
`props.children`), the `null` node, or a fragment (whose JSX always has
several child expressions, hence an array). -/
inductive RNode where
  | text (s : String)
  | elem (tag : String) (attrs : List (String × String)) (ref : Option Nat) (children : RChildren)
  | rnull
  | fragment (children : List RNode)

/-- The `props.children` of a created element: `undefined` (no child
expression), one bare child (not an array), or an array of children. -/
inductive RChildren where
  | cnone
  | single (c : RNode)
  | list (cs : List RNode)
end

/-- `React.createElement(tag, props, ...children)` with a spread argument
list sets `props.children` to `undefined`, the bare child, or the array,
according to the number of spread arguments. -/
def spreadChildren : List RNode → RChildren
  | [] => .cnone
  | [x] => .single x
  | xs => .list xs

/-- `tableAlignStyle` from `markdown.tsx`: `null` when the cursor is past
the alignment sequence or the stored alignment is `null`, otherwise the
`textAlign` value to apply. -/
def tableAlignStyle (t : TableState) : Option Align :=
  if t.aligns.length ≤ t.index then none
  else t.aligns.getD t.index none

/-- The `style` prop produced from a `tableAlignStyle` result: a
`textAlign` entry when an alignment applies, no entry otherwise. -/
def alignAttr : Option Align → List (String × String)
  | some .left => [("textAlign", "left")]
  | some .center => [("textAlign", "center")]
  | some .right => [("textAlign", "right")]
  | none => []

mutual
/-- `rawText` from `markdown.tsx`: flattens all descendant text of an
element, depth-first, ignoring node boundaries. -/
def rawText : Elem → String
  | .text s => s
  | .p c | .h _ _ c | .a _ _ _ c | .img _ _ c | .blockquote c | .em c
  | .strong c | .del c | .pre c | .code _ c | .ol _ c | .ul c | .li c
  | .taskList c | .emoji _ c | .table _ c | .thead c | .tbody c | .tr c
  | .th c | .td c | .fnDef _ c | .matchText c | .matchCurrent c
  | .matchStart c | .matchCurrentStart c => rawTextList c
  | _ => ""

def rawTextList : List Elem → String
  | [] => ""
  | e :: es => rawText e ++ rawTextList es
end

/-- The external collaborators injected into a render session: the fence
renderer (returns `none` for plain code, else a node and a modified flag)
and the math typesetter (expression and presentation class to node). -/
structure Collab where
  fence : Option String → List Elem → Option (RNode × Bool)
  mathjax : String → String → RNode

/-- The `RenderTreeToReact` session state: the table alignment tracker,
the footnote collector (in encounter order), the last-modified handle,
a supply of fresh ref identities, the search match counter, and the log of
diagnostics emitted so far. -/
structure RState where
  table : Option TableState
  footNotes : List (Nat × List Elem)
  lastModifiedRef : Option Nat
  nextRef : Nat
  matchCount : Nat
  errors : List String

/-- The freshly constructed session state. -/
def RState.init : RState :=
  { table := none, footNotes := [], lastModifiedRef := none, nextRef := 0
    matchCount := 0, errors := [] }

/-- The non-log components of a session state, used to express that the
diagnostics log is write-only. -/
def RState.core (s : RState) :
    Option TableState × List (Nat × List Elem) × Option Nat × Nat × Nat :=
  (s.table, s.footNotes, s.lastModifiedRef, s.nextRef, s.matchCount)

/-- The last-modified marker span, carrying its ref identity. -/
def markerNode (r : Nat) : RNode :=
  .elem "span" [("className", "last-modified-marker")] (some r) .cnone

/-- `RenderTreeToReact.lastModified`: creates a fresh ref, stores it in the
session handle, and returns the marker span carrying that ref. -/
def lastModified (s : RState) : RState × RNode :=
  ({ s with lastModifiedRef := some s.nextRef, nextRef := s.nextRef + 1 },
   markerNode s.nextRef)

mutual
/-- `RenderTreeToReact.render`: dispatch over one element, threading the
session state in document order. -/
def render (cb : Collab) (s : RState) : Elem → RState × RNode
  | .text str => (s, .text str)
  | .p c =>
      let r := renderAll cb s c
      (r.1, .elem "p" [] none (.list r.2))
  | .h level id c =>
      let props := match id with
        | some i => if i = "" then [] else [("id", i)]
        | none => []
      let r := renderAll cb s c
      (r.1, .elem ("h" ++ toString level) props none (spreadChildren r.2))
  | .a auto href title c =>
      let r := renderAll cb s c
      if auto then
        (r.1, .elem "a" [("href", href)] none (.list r.2))
      else
        let t := match title with
          | some t0 => if t0 ≠ "" ∧ t0 ≠ href then "\"" ++ t0 ++ "\" " ++ href else href
          | none => href
        (r.1, .elem "a" [("title", t), ("href", href)] none (.list r.2))
  | .img src title c =>
      (s, .elem "img"
        ([("src", src), ("alt", rawTextList c)] ++
          (match title with | some t => [("title", t)] | none => []))
        none .cnone)
  | .br => (s, .elem "br" [] none .cnone)
  | .blockquote c =>
      let r := renderAll cb s c
      (r.1, .elem "blockquote" [] none (.list r.2))
  | .em c =>
      let r := renderAll cb s c
      (r.1, .elem "em" [] none (.list r.2))
  | .strong c =>
      let r := renderAll cb s c
      (r.1, .elem "strong" [] none (.list r.2))
  | .del c =>
      let r := renderAll cb s c
      (r.1, .elem "del" [] none (.list r.2))
  | .pre c =>
      let r := renderAll cb s c
      (r.1, .elem "pre" [] none (.list r.2))
  | .code lang c =>
      match cb.fence lang c with
      | none =>
          let r := renderAll cb s c
          (r.1, .elem "code" [] none (.list r.2))
      | some (node, modified) =>
          if modified then
            let m := lastModified s
            (m.1, .fragment [m.2, node])
          else
            (s, node)
  | .ol start c =>
      let r := renderAll cb s c
      (r.1, .elem "ol"
        (match start with | some n => [("start", toString n)] | none => [])
        none (.list r.2))
  | .ul c =>
      let r := renderAll cb s c
      (r.1, .elem "ul" [] none (.list r.2))
  | .li c =>
      let r := renderAll cb s c
      (r.1, .elem "li" [] none (.list r.2))
  | .taskList c =>
      let r := renderAll cb s c
      (r.1, .elem "li" [("className", "task-list-item")] none (.list r.2))
  | .emoji name c =>
      let r := renderAll cb s c
      (r.1, .elem "span"
        [("title", name), ("role", "img"), ("aria-label", name ++ " emoji")]
        none (.list r.2))
  | .table align c =>
      let s1 := { s with table := some ⟨align, 0⟩ }
      let r := renderAll cb s1 c
      (r.1, .elem "table" [] none (.list r.2))
  | .thead c =>
      let r := renderAll cb s c
      (r.1, .elem "thead" [] none (.list r.2))
  | .tbody c =>
      let r := renderAll cb s c
      (r.1, .elem "tbody" [] none (.list r.2))
  | .tr c =>
      let s1 := match s.table with
        | some t => { s with table := some { t with index := 0 } }
        | none => s
      let r := renderAll cb s1 c
      (r.1, .elem "tr" [] none (.list r.2))
  | .th c =>
      match s.table with
      | some t =>
          let style := tableAlignStyle t
          let s1 := { s with table := some { t with index := t.index + 1 } }
          let r := renderAll cb s1 c
          (r.1, .elem "th" (alignAttr style) none (.list r.2))
      | none =>
          let r := renderAll cb s c
          (r.1, .elem "th" [] none (.list r.2))
  | .td c =>
      match s.table with
      | some t =>
          let style := tableAlignStyle t
          let s1 := { s with table := some { t with index := t.index + 1 } }
          let r := renderAll cb s1 c
          (r.1, .elem "td" (alignAttr style) none (.list r.2))
      | none =>
          let r := renderAll cb s c
          (r.1, .elem "td" [] none (.list r.2))
  | .checkbox checked =>
      (s, .elem "input"
        [("type", "checkbox"), ("disabled", "true"), ("checked", toString checked),
         ("className", "task-list-item-checkbox")] none .cnone)
  | .hr => (s, .elem "hr" [] none .cnone)
  | .fnRef id =>
      (s, .elem "sup" [] none (.single (
        .elem "a"
          [("href", "#user-content-fn-" ++ toString id),
           ("id", "user-content-fnref-" ++ toString id),
           ("aria-describedby", "footnote-label")]
          none (.single (.text (toString id))))))
  | .fnDef id c =>
      ({ s with footNotes := s.footNotes ++ [(id, c)] }, .rnull)
  | .math inline expr =>
      (s, cb.mathjax expr (if inline then "math-expr-inline" else "math-expr-block"))
  | .html raw =>
      (s, .elem "span" [("dangerouslySetInnerHTML", raw)] none .cnone)
  | .modified =>
      let m := lastModified s
      (m.1, m.2)
  | .matchText c =>
      let r := renderAll cb s c
      (r.1, .elem "span" [("className", "search-text")] none (.list r.2))
  | .matchCurrent c =>
      let r := renderAll cb s c
      (r.1, .elem "span" [("className", "search-text-current")] none (.list r.2))
  | .matchStart c =>
      let s1 := { s with matchCount := s.matchCount + 1 }
      let r := renderAll cb s1 c
      (r.1, .elem "span" [("className", "search-text-start")] none (.list r.2))
  | .matchCurrentStart c =>
      let s1 := { s with matchCount := s.matchCount + 1 }
      let r := renderAll cb s1 c
      (r.1, .elem "span" [("className", "search-text-current-start")] none (.list r.2))
  | .unknown kind =>
      ({ s with errors := s.errors ++ ["Unknown render tree element: " ++ kind] },
       .rnull)

/-- `RenderTreeToReact.renderAll`: `Promise.all` over the siblings; results
are assembled by position, and all tracker mutations happen in the
synchronous prefixes, hence in document order. -/
def renderAll (cb : Collab) (s : RState) : List Elem → RState × List RNode
  | [] => (s, [])
  | e :: es =>
      let r := render cb s e
      let rs := renderAll cb r.1 es
      (rs.1, r.2 :: rs.2)
end

/-- The back-to-content link appended to a rendered footnote body. -/
def backref (id : Nat) : RNode :=
  .elem "a"
    [("href", "#user-content-fnref-" ++ toString id), ("aria-label", "Back to content")]
    none (.single (.text "↩"))

/-- The push target resolution
`(lastElementOf(children)?.props?.children ?? children).push(backref)`:
when the last rendered child is a React element whose `props.children` is
an array, the link is pushed into that array; with no last element, a text
or null last child, or a childless last element (`props.children`
undefined) it is pushed onto the top-level child list; but a last element
whose `props.children` is a bare single child makes `.push` throw a
TypeError, embedded as `none`. -/
def pushBackref (children : List RNode) (b : RNode) : Option (List RNode) :=
  match children.getLast? with
  | some (.elem tag attrs ref (.list cs)) =>
      some (children.dropLast ++ [.elem tag attrs ref (.list (cs ++ [b]))])
  | some (.fragment cs) =>
      some (children.dropLast ++ [.fragment (cs ++ [b])])
  | some (.elem _ _ _ (.single _)) => none
  | _ => some (children ++ [b])

/-- The body of `RenderTreeToReact.renderFootnotes` mapped over the
collected definitions in collection order: each becomes an `li` carrying
anchor id `user-content-fn-<id>` whose children are the rendered body with
the back-reference pushed in; a throwing push rejects the whole phase
(`none`). -/
def renderFootnoteItems (cb : Collab) (s : RState) :
    List (Nat × List Elem) → Option (RState × List RNode)
  | [] => some (s, [])
  | (id, c) :: rest =>
      let r := renderAll cb s c
      match pushBackref r.2 (backref id) with
      | none => none
      | some body =>
          match renderFootnoteItems cb r.1 rest with
          | none => none
          | some (s2, items) =>
              some (s2,
                RNode.elem "li" [("id", "user-content-fn-" ++ toString id)] none
                  (.list body) :: items)

/-- `RenderTreeToReact.renderFootnotes`: `null` when nothing was collected,
else a `section.footnotes` with the `footnote-label` heading and the
ordered list of rendered definitions; `none` when a back-reference push
threw. -/
def renderFootnotes (cb : Collab) (s : RState) : Option (RState × RNode) :=
  match s.footNotes with
  | [] => some (s, .rnull)
  | fns =>
      match renderFootnoteItems cb s fns with
      | none => none
      | some (s2, items) =>
          some (s2, .elem "section" [("className", "footnotes")] none (.list [
            .elem "h2" [("id", "footnote-label")] none (.single (.text "Footnotes")),
            .elem "ol" [] none (.list items)]))

/-- The result of a completed render session (`MarkdownReactTree`). -/
structure MarkdownResult where
  root : RNode
  lastModified : Option Nat
  matchCount : Nat

/-- `RenderTreeToReact.run`: render the main tree, then the deferred
footnote section, and expose the two scalar results; the session promise
rejects (`none`) when the footnote phase threw. -/
def run (cb : Collab) (tree : List Elem) : Option MarkdownResult :=
  let r := renderAll cb RState.init tree
  match renderFootnotes cb r.1 with
  | none => none
  | some (f1, fnode) =>
      some { root := .fragment (r.2 ++ [fnode])
             lastModified := f1.lastModifiedRef
             matchCount := f1.matchCount }

/-- A stub collaborator whose fence renderer always declines special
handling (the plain-code path). -/
def noCollab : Collab :=
  { fence := fun _ _ => none, mathjax := fun _ _ => .rnull }

example :
    Option.map MarkdownResult.matchCount
      (run noCollab [.matchStart [], .matchText [], .matchCurrentStart [], .matchText []]) =
      some 2 := rfl

example :
    render noCollab RState.init (.tbody []) = (RState.init, .elem "tbody" [] none (.list [])) := rfl

/-- A DOM node produced by the legacy synchronous variant: a text node or
an element with attributes (DOM properties are embedded as attribute
entries) and appended children. -/
inductive DNode where
  | dtext (s : String)
  | delem (tag : String) (attrs : List (String × String)) (children : List DNode)

/-- Serialization of an attribute list, for `innerHTML`. -/
def attrsHTML : List (String × String) → String
  | [] => ""
  | (k, v) :: rest => " " ++ k ++ "=\"" ++ v ++ "\"" ++ attrsHTML rest

mutual
/-- The `innerHTML` serialization of a DOM node, used by the legacy image
case for its `alt` text. -/
def dnodeHTML : DNode → String
  | .dtext s => s
  | .delem tag attrs cs =>
      "<" ++ tag ++ attrsHTML attrs ++ ">" ++ dnodesHTML cs ++ "</" ++ tag ++ ">"

/-- `innerHTML` of a child list. -/
def dnodesHTML : List DNode → String
  | [] => ""
  | d :: ds => dnodeHTML d ++ dnodesHTML ds
end

namespace ParseTreeRenderer

/-- The `ParseTreeRenderer` session state: the table alignment tracker,
the footnote collector, and the diagnostics log. -/
structure LState where
  table : Option TableState
  footNotes : List (Nat × List Elem)
  errors : List String

/-- The freshly constructed legacy session state. -/
def LState.init : LState := { table := none, footNotes := [], errors := [] }

/-- `ParseTreeRenderer.tableAlign` from `markdown.ts`: `null` when no table
is active or when `aligns.length >= index`; otherwise the (out-of-range)
indexed access `aligns[index]`, which yields no stored alignment. -/
def tableAlign (table : Option TableState) : TAlign :=
  match table with
  | none => none
  | some t =>
      if t.aligns.length ≥ t.index then none
      else t.aligns.getD t.index none

mutual
/-- `ParseTreeRenderer.render`: renders one element, returning the list of
nodes appended to the parent (empty for elided or unknown elements, several
for raw HTML).  The `tbody` case calls `document.createElement('thead')` in
the source, and is embedded as written. -/
def render (ph : String → List DNode) (s : LState) : Elem → LState × List DNode
  | .text str => (s, [.dtext str])
  | .p c =>
      let r := renderAll ph s c
      (r.1, [.delem "p" [] r.2])
  | .h level id c =>
      let attrs := match id with
        | some i => if i = "" then [] else [("id", i)]
        | none => []
      let r := renderAll ph s c
      (r.1, [.delem ("h" ++ toString level) attrs r.2])
  | .a _ href title c =>
      let attrs := [("href", href)] ++
        (match title with
          | some t => if t = "" then [] else [("title", t)]
          | none => [])
      let r := renderAll ph s c
      (r.1, [.delem "a" attrs r.2])
  | .img src title c =>
      let attrs0 := [("src", src)] ++
        (match title with
          | some t => if t = "" then [] else [("title", t)]
          | none => [])
      let r := renderAll ph s c
      (r.1, [.delem "img" (attrs0 ++ [("alt", dnodesHTML r.2)]) []])
  | .br => (s, [.delem "br" [] []])
  | .blockquote c =>
      let r := renderAll ph s c
      (r.1, [.delem "blockquote" [] r.2])
  | .em c =>
      let r := renderAll ph s c
      (r.1, [.delem "em" [] r.2])
  | .strong c =>
      let r := renderAll ph s c
      (r.1, [.delem "strong" [] r.2])
  | .del c =>
      let r := renderAll ph s c
      (r.1, [.delem "del" [] r.2])
  | .pre c =>
      let r := renderAll ph s c
      (r.1, [.delem "pre" [] r.2])
  | .code lang c =>
      let attrs := match lang with
        | some l => if l = "" then [] else [("className", "language-" ++ l)]
        | none => []
      let r := renderAll ph s c
      (r.1, [.delem "code" attrs r.2])
  | .ol start c =>
      let attrs := match start with
        | some n => [("start", toString n)]
        | none => []
      let r := renderAll ph s c
      (r.1, [.delem "ol" attrs r.2])
  | .ul c =>
      let r := renderAll ph s c
      (r.1, [.delem "ul" [] r.2])
  | .li c =>
      let r := renderAll ph s c
      (r.1, [.delem "li" [] r.2])
  | .table align c =>
      let s1 := { s with table := some ⟨align, 0⟩ }
      let r := renderAll ph s1 c
      (r.1, [.delem "table" [] r.2])
  | .thead c =>
      let r := renderAll ph s c
      (r.1, [.delem "thead" [] r.2])
  | .tbody c =>
      let r := renderAll ph s c
      (r.1, [.delem "thead" [] r.2])
  | .tr c =>
      let s1 := match s.table with
        | some t => { s with table := some { t with index := 0 } }
        | none => s
      let r := renderAll ph s1 c
      (r.1, [.delem "tr" [] r.2])
  | .th c =>
      let s1 := match s.table with
        | some t => { s with table := some { t with index := t.index + 1 } }
        | none => s
      let r := renderAll ph s1 c
      (r.1, [.delem "th" [] r.2])
  | .td c =>
      let s1 := match s.table with
        | some t => { s with table := some { t with index := t.index + 1 } }
        | none => s
      let r := renderAll ph s1 c
      (r.1, [.delem "td" [] r.2])
  | .checkbox checked =>
      (s, [.delem "input" [("disabled", "true"), ("checked", toString checked)] []])
  | .hr => (s, [.delem "hr" [] []])
  | .fnRef id =>
      (s, [.delem "sup" [] [.delem "a"
        [("href", "#user-content-fn-" ++ toString id),
         ("id", "user-content-fnref-" ++ toString id),
         ("aria-describedby", "footnote-label")] []]])
  | .fnDef id c =>
      ({ s with footNotes := s.footNotes ++ [(id, c)] }, [])
  | .html raw =>
      (s, (ph raw).reverse)
  | .unknown kind =>
      ({ s with errors := s.errors ++ ["Unknown parse tree element: " ++ kind] }, [])
  | .taskList _ | .emoji _ _ | .math _ _ | .modified | .matchText _
  | .matchCurrent _ | .matchStart _ | .matchCurrentStart _ =>
      ({ s with errors := s.errors ++ ["Unknown parse tree element"] }, [])

/-- Renders a sibling list, concatenating the appended nodes. -/
def renderAll (ph : String → List DNode) (s : LState) : List Elem → LState × List DNode
  | [] => (s, [])
  | e :: es =>
      let r := render ph s e
      let rs := renderAll ph r.1 es
      (rs.1, r.2 ++ rs.2)
end

/-- `(li.lastChild ?? li).appendChild(a)`: append to the last child of the
list item when it has one, else to the list item itself; appending a child
to a DOM `Text` node throws, embedded as `none`. -/
def appendBackref (li : DNode) (b : DNode) : Option DNode :=
  match li with
  | .delem tag attrs cs =>
      match cs.getLast? with
      | none => some (.delem tag attrs [b])
      | some (.delem t2 a2 c2) =>
          some (.delem tag attrs (cs.dropLast ++ [.delem t2 a2 (c2 ++ [b])]))
      | some (.dtext _) => none
  | .dtext _ => none

/-- The legacy back-to-content link: note the `href` is written without a
leading `#` in the source. -/
def legacyBackref (id : Nat) : DNode :=
  .delem "a"
    [("href", "user-content-fnref-" ++ toString id),
     ("className", "data-footnote-backref"), ("aria-label", "Back to content")]
    [.dtext "↩"]

/-- The footnote list items built by `ParseTreeRenderer.end`, in collection
order; `none` when appending a back-reference threw. -/
def endItems (ph : String → List DNode) (s : LState) :
    List (Nat × List Elem) → Option (LState × List DNode)
  | [] => some (s, [])
  | (id, c) :: rest =>
      let r := renderAll ph s c
      let li := DNode.delem "li" [("id", "user-content-fn-" ++ toString id)] r.2
      match appendBackref li (legacyBackref id) with
      | none => none
      | some li2 =>
          match endItems ph r.1 rest with
          | none => none
          | some (s2, rest2) => some (s2, li2 :: rest2)

/-- `ParseTreeRenderer.end` (`endRender` here, since `end` is reserved):
appends nothing when no footnotes were collected, else a
`section.footnotes` with the `footnote-label` heading and the list items. -/
def endRender (ph : String → List DNode) (s : LState) : Option (LState × List DNode) :=
  match s.footNotes with
  | [] => some (s, [])
  | fns =>
      match endItems ph s fns with
      | none => none
      | some (s2, items) =>
          some (s2, [.delem "section" [("className", "footnotes")]
            ([.delem "h2" [("id", "footnote-label"), ("className", "sr-only")]
                [.dtext "Footnotes"],
              .delem "ol" [] items])])

/-- `PreviewContent.render`: the whole legacy pass over a tree. -/
def runPass (ph : String → List DNode) (tree : List Elem) : Option (LState × List DNode) :=
  let r := renderAll ph LState.init tree
  match endRender ph r.1 with
  | none => none
  | some (s2, fns) => some (s2, r.2 ++ fns)

end ParseTreeRenderer

/-- A stub HTML parser for the legacy raw-markup case. -/
def phEmpty : String → List DNode := fun _ => []

example :
    ParseTreeRenderer.render phEmpty ParseTreeRenderer.LState.init (.tbody []) =
      (ParseTreeRenderer.LState.init, [.delem "thead" [] []]) := rfl

mutual
/-- The number of match-start / match-current-start nodes the asynchronous
pass encounters inside one element: footnote definition subtrees are
deferred (not encountered inline) and image children are only flattened to
text, so both count zero here. -/
def starts : Elem → Nat
  | .matchStart c => 1 + startsList c
  | .matchCurrentStart c => 1 + startsList c
  | .p c | .h _ _ c | .a _ _ _ c | .blockquote c | .em c | .strong c
  | .del c | .pre c | .code _ c | .ol _ c | .ul c | .li c | .taskList c
  | .emoji _ c | .table _ c | .thead c | .tbody c | .tr c | .th c | .td c
  | .matchText c | .matchCurrent c => startsList c
  | _ => 0

/-- `starts` summed over a sibling list. -/
def startsList : List Elem → Nat
  | [] => 0
  | e :: es => starts e + startsList es
end

mutual
/-- The footnote definitions the asynchronous pass collects from one
element, in encounter order; a definition is collected wholesale, without
descending into its own body. -/
def fnCollect : Elem → List (Nat × List Elem)
  | .fnDef id c => [(id, c)]
  | .p c | .h _ _ c | .a _ _ _ c | .blockquote c | .em c | .strong c
  | .del c | .pre c | .code _ c | .ol _ c | .ul c | .li c | .taskList c
  | .emoji _ c | .table _ c | .thead c | .tbody c | .tr c | .th c | .td c
  | .matchText c | .matchCurrent c | .matchStart c | .matchCurrentStart c =>
      fnCollectList c
  | _ => []

/-- `fnCollect` concatenated over a sibling list. -/
def fnCollectList : List Elem → List (Nat × List Elem)
  | [] => []
  | e :: es => fnCollect e ++ fnCollectList es
end

/-- The match-start count contributed by the deferred rendering of a list
of collected footnote definitions. -/
def startsDefs : List (Nat × List Elem) → Nat
  | [] => 0
  | d :: ds => startsList d.2 + startsDefs ds

mutual
/-- When the fence collaborator always declines (so every code fence takes
the plain-code path and renders its children), one `render` step adds to
the match counter exactly the number of start nodes it encounters, and
appends to the footnote collector exactly the definitions it encounters,
in order. -/
theorem render_count (cb : Collab) (hf : ∀ l c, cb.fence l c = none)
    (s : RState) (e : Elem) :
    (render cb s e).1.matchCount = s.matchCount + starts e ∧
    (render cb s e).1.footNotes = s.footNotes ++ fnCollect e := by
  cases e with
  | text str => simp [render, starts, fnCollect]
  | p c =>
      have ih := renderAll_count cb hf s c
      simpa [render, starts, fnCollect] using ih
  | h level id c =>
      have ih := renderAll_count cb hf s c
      simpa [render, starts, fnCollect] using ih
  | a auto href title c =>
      have ih := renderAll_count cb hf s c
      cases auto <;> simpa [render, starts, fnCollect] using ih
  | img src title c => simp [render, starts, fnCollect]
  | br => simp [render, starts, fnCollect]
  | blockquote c =>
      have ih := renderAll_count cb hf s c
      simpa [render, starts, fnCollect] using ih
  | em c =>
      have ih := renderAll_count cb hf s c
      simpa [render, starts, fnCollect] using ih
  | strong c =>
      have ih := renderAll_count cb hf s c
      simpa [render, starts, fnCollect] using ih
  | del c =>
      have ih := renderAll_count cb hf s c
      simpa [render, starts, fnCollect] using ih
  | pre c =>
      have ih := renderAll_count cb hf s c
      simpa [render, starts, fnCollect] using ih
  | code lang c =>
      have ih := renderAll_count cb hf s c
      simpa [render, starts, fnCollect, hf lang c] using ih
  | ol start c =>
      have ih := renderAll_count cb hf s c
      simpa [render, starts, fnCollect] using ih
  | ul c =>
      have ih := renderAll_count cb hf s c
      simpa [render, starts, fnCollect] using ih
  | li c =>
      have ih := renderAll_count cb hf s c
      simpa [render, starts, fnCollect] using ih
  | taskList c =>
      have ih := renderAll_count cb hf s c
      simpa [render, starts, fnCollect] using ih
  | emoji name c =>
      have ih := renderAll_count cb hf s c
      simpa [render, starts, fnCollect] using ih
  | table align c =>
      have ih := renderAll_count cb hf { s with table := some ⟨align, 0⟩ } c
      simpa [render, starts, fnCollect] using ih
  | thead c =>
      have ih := renderAll_count cb hf s c
      simpa [render, starts, fnCollect] using ih
  | tbody c =>
      have ih := renderAll_count cb hf s c
      simpa [render, starts, fnCollect] using ih
  | tr c =>
      cases ht : s.table with
      | none =>
          have ih := renderAll_count cb hf s c
          simpa [render, ht, starts, fnCollect] using ih
      | some t =>
          have ih := renderAll_count cb hf { s with table := some { t with index := 0 } } c
          simpa [render, ht, starts, fnCollect] using ih
  | th c =>
      cases ht : s.table with
      | none =>
          have ih := renderAll_count cb hf s c
          simpa [render, ht, starts, fnCollect] using ih
      | some t =>
          have ih := renderAll_count cb hf { s with table := some { t with index := t.index + 1 } } c
          simpa [render, ht, starts, fnCollect] using ih
  | td c =>
      cases ht : s.table with
      | none =>
          have ih := renderAll_count cb hf s c
          simpa [render, ht, starts, fnCollect] using ih
      | some t =>
          have ih := renderAll_count cb hf { s with table := some { t with index := t.index + 1 } } c
          simpa [render, ht, starts, fnCollect] using ih
  | checkbox checked => simp [render, starts, fnCollect]
  | hr => simp [render, starts, fnCollect]
  | fnRef id => simp [render, starts, fnCollect]
  | fnDef id c => simp [render, starts, fnCollect]
  | math inline expr => simp [render, starts, fnCollect]
  | html raw => simp [render, starts, fnCollect]
  | modified => simp [render, lastModified, starts, fnCollect]
  | matchText c =>
      have ih := renderAll_count cb hf s c
      simpa [render, starts, fnCollect] using ih
  | matchCurrent c =>
      have ih := renderAll_count cb hf s c
      simpa [render, starts, fnCollect] using ih
  | matchStart c =>
      have ih := renderAll_count cb hf { s with matchCount := s.matchCount + 1 } c
      constructor
      · have := ih.1
        simp [render, starts] at this ⊢
        omega
      · simpa [render, starts, fnCollect] using ih.2
  | matchCurrentStart c =>
      have ih := renderAll_count cb hf { s with matchCount := s.matchCount + 1 } c
      constructor
      · have := ih.1
        simp [render, starts] at this ⊢
        omega
      · simpa [render, starts, fnCollect] using ih.2
  | unknown kind => simp [render, starts, fnCollect]

/-- Sibling-list version of `render_count`. -/
theorem renderAll_count (cb : Collab) (hf : ∀ l c, cb.fence l c = none)
    (s : RState) (es : List Elem) :
    (renderAll cb s es).1.matchCount = s.matchCount + startsList es ∧
    (renderAll cb s es).1.footNotes = s.footNotes ++ fnCollectList es := by
  cases es with
  | nil => simp [renderAll, startsList, fnCollectList]
  | cons e es =>
      have ih1 := render_count cb hf s e
      have ih2 := renderAll_count cb hf (render cb s e).1 es
      constructor
      · have := ih2.1
        simp [renderAll, startsList, ih1.1] at this ⊢
        omega
      · simp [renderAll, fnCollectList, ih2.2, ih1.2]
end

/-- A completed deferred footnote rendering adds to the match counter
exactly the start nodes inside the collected bodies. -/
theorem renderFootnoteItems_count (cb : Collab) (hf : ∀ l c, cb.fence l c = none) :
    ∀ (l : List (Nat × List Elem)) (s s2 : RState) (items : List RNode),
      renderFootnoteItems cb s l = some (s2, items) →
      s2.matchCount = s.matchCount + startsDefs l := by
  intro l
  induction l with
  | nil =>
      intro s s2 items h
      simp [renderFootnoteItems] at h
      simp [← h.1, startsDefs]
  | cons d rest ih =>
      intro s s2 items h
      obtain ⟨id, c⟩ := d
      have h1 := (renderAll_count cb hf s c).1
      simp only [renderFootnoteItems] at h
      cases hpb : pushBackref (renderAll cb s c).2 (backref id) with
      | none => simp [hpb] at h
      | some body =>
          rw [hpb] at h
          cases hrest : renderFootnoteItems cb (renderAll cb s c).1 rest with
          | none => simp [hrest] at h
          | some pr =>
              obtain ⟨s3, items3⟩ := pr
              rw [hrest] at h
              simp at h
              have h2 := ih (renderAll cb s c).1 s3 items3 hrest
              rw [h.1] at h2
              simp [h2, h1, startsDefs]
              omega

/-- When the fence collaborator always declines and the session completes,
its final match count is the number of start nodes in the main tree plus
the number in the collected footnote bodies. -/
theorem run_matchCount (cb : Collab) (hf : ∀ l c, cb.fence l c = none)
    (tree : List Elem) (res : MarkdownResult) (hres : run cb tree = some res) :
    res.matchCount = startsList tree + startsDefs (fnCollectList tree) := by
  have h1 := renderAll_count cb hf RState.init tree
  have hmc : (renderAll cb RState.init tree).1.matchCount = startsList tree := by
    simpa [RState.init] using h1.1
  have hfn : (renderAll cb RState.init tree).1.footNotes = fnCollectList tree := by
    simpa [RState.init] using h1.2
  unfold run at hres
  cases hc : (renderAll cb RState.init tree).1.footNotes with
  | nil =>
      have hl : fnCollectList tree = [] := by rw [← hfn, hc]
      simp [renderFootnotes, hc] at hres
      rw [← hres]
      simp [hmc, hl, startsDefs]
  | cons d ds =>
      have hl : fnCollectList tree = d :: ds := by rw [← hfn, hc]
      simp only [renderFootnotes, hc] at hres
      cases hitems : renderFootnoteItems cb (renderAll cb RState.init tree).1 (d :: ds) with
      | none => simp [hitems] at hres
      | some pr =>
          obtain ⟨s2, items⟩ := pr
          rw [hitems] at hres
          simp at hres
          have hcount := renderFootnoteItems_count cb hf (d :: ds)
            (renderAll cb RState.init tree).1 s2 items hitems
          rw [← hres]
          simp [hcount, hmc, hl]

mutual
/-- The diagnostics log is write-only: two session states that agree on
everything but the log produce identical output for every element and
stay in agreement on everything but the log. -/
theorem render_core_congr (cb : Collab) (e : Elem) :
    ∀ s s1 : RState, s.core = s1.core →
      (render cb s e).2 = (render cb s1 e).2 ∧
      (render cb s e).1.core = (render cb s1 e).1.core := by
  intro s s1 h0
  have h := h0
  simp only [RState.core, Prod.mk.injEq] at h
  obtain ⟨h1, h2, h3, h4, h5⟩ := h
  cases e with
  | text str => exact ⟨by simp [render], by simpa [render] using h0⟩
  | p c =>
      have ih := renderAll_core_congr cb c s s1 h0
      exact ⟨by simp [render, ih.1], by simpa [render] using ih.2⟩
  | h level id c =>
      have ih := renderAll_core_congr cb c s s1 h0
      exact ⟨by simp [render, ih.1], by simpa [render] using ih.2⟩
  | a auto href title c =>
      have ih := renderAll_core_congr cb c s s1 h0
      cases auto <;>
        exact ⟨by simp [render, ih.1], by simpa [render] using ih.2⟩
  | img src title c => exact ⟨by simp [render], by simpa [render] using h0⟩
  | br => exact ⟨by simp [render], by simpa [render] using h0⟩
  | blockquote c =>
      have ih := renderAll_core_congr cb c s s1 h0
      exact ⟨by simp [render, ih.1], by simpa [render] using ih.2⟩
  | em c =>
      have ih := renderAll_core_congr cb c s s1 h0
      exact ⟨by simp [render, ih.1], by simpa [render] using ih.2⟩
  | strong c =>
      have ih := renderAll_core_congr cb c s s1 h0
      exact ⟨by simp [render, ih.1], by simpa [render] using ih.2⟩
  | del c =>
      have ih := renderAll_core_congr cb c s s1 h0
      exact ⟨by simp [render, ih.1], by simpa [render] using ih.2⟩
  | pre c =>
      have ih := renderAll_core_congr cb c s s1 h0
      exact ⟨by simp [render, ih.1], by simpa [render] using ih.2⟩
  | code lang c =>
      cases hfc : cb.fence lang c with
      | none =>
          have ih := renderAll_core_congr cb c s s1 h0
          exact ⟨by simp [render, hfc, ih.1], by simpa [render, hfc] using ih.2⟩
      | some nm =>
          obtain ⟨node, m⟩ := nm
          cases m with
          | false => exact ⟨by simp [render, hfc], by simpa [render, hfc] using h0⟩
          | true =>
              refine ⟨by simp [render, hfc, lastModified, h4], ?_⟩
              simp [render, hfc, lastModified, RState.core, h1, h2, h3, h4, h5]
  | ol start c =>
      have ih := renderAll_core_congr cb c s s1 h0
      exact ⟨by simp [render, ih.1], by simpa [render] using ih.2⟩
  | ul c =>
      have ih := renderAll_core_congr cb c s s1 h0
      exact ⟨by simp [render, ih.1], by simpa [render] using ih.2⟩
  | li c =>
      have ih := renderAll_core_congr cb c s s1 h0
      exact ⟨by simp [render, ih.1], by simpa [render] using ih.2⟩
  | taskList c =>
      have ih := renderAll_core_congr cb c s s1 h0
      exact ⟨by simp [render, ih.1], by simpa [render] using ih.2⟩
  | emoji name c =>
      have ih := renderAll_core_congr cb c s s1 h0
      exact ⟨by simp [render, ih.1], by simpa [render] using ih.2⟩
  | table align c =>
      have hup : ({ s with table := some ⟨align, 0⟩ } : RState).core =
          ({ s1 with table := some ⟨align, 0⟩ } : RState).core := by
        simp [RState.core, h2, h3, h4, h5]
      have ih := renderAll_core_congr cb c _ _ hup
      exact ⟨by simp [render, ih.1], by simpa [render] using ih.2⟩
  | thead c =>
      have ih := renderAll_core_congr cb c s s1 h0
      exact ⟨by simp [render, ih.1], by simpa [render] using ih.2⟩
  | tbody c =>
      have ih := renderAll_core_congr cb c s s1 h0
      exact ⟨by simp [render, ih.1], by simpa [render] using ih.2⟩
  | tr c =>
      cases ht : s.table with
      | none =>
          have ht1 : s1.table = none := by rw [← h1, ht]
          have ih := renderAll_core_congr cb c s s1 h0
          exact ⟨by simp [render, ht, ht1, ih.1], by simpa [render, ht, ht1] using ih.2⟩
      | some t =>
          have ht1 : s1.table = some t := by rw [← h1, ht]
          have hup : ({ s with table := some { t with index := 0 } } : RState).core =
              ({ s1 with table := some { t with index := 0 } } : RState).core := by
            simp [RState.core, h2, h3, h4, h5]
          have ih := renderAll_core_congr cb c _ _ hup
          exact ⟨by simp [render, ht, ht1, ih.1], by simpa [render, ht, ht1] using ih.2⟩
  | th c =>
      cases ht : s.table with
      | none =>
          have ht1 : s1.table = none := by rw [← h1, ht]
          have ih := renderAll_core_congr cb c s s1 h0
          exact ⟨by simp [render, ht, ht1, ih.1], by simpa [render, ht, ht1] using ih.2⟩
      | some t =>
          have ht1 : s1.table = some t := by rw [← h1, ht]
          have hup : ({ s with table := some { t with index := t.index + 1 } } : RState).core =
              ({ s1 with table := some { t with index := t.index + 1 } } : RState).core := by
            simp [RState.core, h2, h3, h4, h5]
          have ih := renderAll_core_congr cb c _ _ hup
          exact ⟨by simp [render, ht, ht1, ih.1], by simpa [render, ht, ht1] using ih.2⟩
  | td c =>
      cases ht : s.table with
      | none =>
          have ht1 : s1.table = none := by rw [← h1, ht]
          have ih := renderAll_core_congr cb c s s1 h0
          exact ⟨by simp [render, ht, ht1, ih.1], by simpa [render, ht, ht1] using ih.2⟩
      | some t =>
          have ht1 : s1.table = some t := by rw [← h1, ht]
          have hup : ({ s with table := some { t with index := t.index + 1 } } : RState).core =
              ({ s1 with table := some { t with index := t.index + 1 } } : RState).core := by
            simp [RState.core, h2, h3, h4, h5]
          have ih := renderAll_core_congr cb c _ _ hup
          exact ⟨by simp [render, ht, ht1, ih.1], by simpa [render, ht, ht1] using ih.2⟩
  | checkbox checked => exact ⟨by simp [render], by simpa [render] using h0⟩
  | hr => exact ⟨by simp [render], by simpa [render] using h0⟩
  | fnRef id => exact ⟨by simp [render], by simpa [render] using h0⟩
  | fnDef id c =>
      refine ⟨by simp [render], ?_⟩
      simp [render, RState.core, h1, h2, h3, h4, h5]
  | math inline expr => exact ⟨by simp [render], by simpa [render] using h0⟩
  | html raw => exact ⟨by simp [render], by simpa [render] using h0⟩
  | modified =>
      refine ⟨by simp [render, lastModified, h4], ?_⟩
      simp [render, lastModified, RState.core, h1, h2, h3, h4, h5]
  | matchText c =>
      have ih := renderAll_core_congr cb c s s1 h0
      exact ⟨by simp [render, ih.1], by simpa [render] using ih.2⟩
  | matchCurrent c =>
      have ih := renderAll_core_congr cb c s s1 h0
      exact ⟨by simp [render, ih.1], by simpa [render] using ih.2⟩
  | matchStart c =>
      have hup : ({ s with matchCount := s.matchCount + 1 } : RState).core =
          ({ s1 with matchCount := s1.matchCount + 1 } : RState).core := by
        simp [RState.core, h1, h2, h3, h4, h5]
      have ih := renderAll_core_congr cb c _ _ hup
      exact ⟨by simp [render, ih.1], by simpa [render] using ih.2⟩
  | matchCurrentStart c =>
      have hup : ({ s with matchCount := s.matchCount + 1 } : RState).core =
          ({ s1 with matchCount := s1.matchCount + 1 } : RState).core := by
        simp [RState.core, h1, h2, h3, h4, h5]
      have ih := renderAll_core_congr cb c _ _ hup
      exact ⟨by simp [render, ih.1], by simpa [render] using ih.2⟩
  | unknown kind =>
      refine ⟨by simp [render], ?_⟩
      simp [render, RState.core, h1, h2, h3, h4, h5]

/-- Sibling-list version of `render_core_congr`. -/
theorem renderAll_core_congr (cb : Collab) (es : List Elem) :
    ∀ s s1 : RState, s.core = s1.core →
      (renderAll cb s es).2 = (renderAll cb s1 es).2 ∧
      (renderAll cb s es).1.core = (renderAll cb s1 es).1.core := by
  intro s s1 h0
  cases es with
  | nil => exact ⟨by simp [renderAll], by simpa [renderAll] using h0⟩
  | cons e es =>
      have ih1 := render_core_congr cb e s s1 h0
      have ih2 := renderAll_core_congr cb es (render cb s e).1 (render cb s1 e).1 ih1.2
      exact ⟨by simp [renderAll, ih1.1, ih2.1], by simpa [renderAll] using ih2.2⟩
end

mutual
/-- The table alignment tracker is never cleared: once the state holds a
table, rendering any element leaves some table state in place. -/
theorem render_table_kept (cb : Collab) (e : Elem) :
    ∀ (s : RState) (t : TableState), s.table = some t →
      ∃ t2, (render cb s e).1.table = some t2 := by
  intro s t hs
  cases e with
  | text str => exact ⟨t, by simpa [render] using hs⟩
  | p c => simpa [render] using renderAll_table_kept cb c s t hs
  | h level id c => simpa [render] using renderAll_table_kept cb c s t hs
  | a auto href title c =>
      cases auto <;> simpa [render] using renderAll_table_kept cb c s t hs
  | img src title c => exact ⟨t, by simpa [render] using hs⟩
  | br => exact ⟨t, by simpa [render] using hs⟩
  | blockquote c => simpa [render] using renderAll_table_kept cb c s t hs
  | em c => simpa [render] using renderAll_table_kept cb c s t hs
  | strong c => simpa [render] using renderAll_table_kept cb c s t hs
  | del c => simpa [render] using renderAll_table_kept cb c s t hs
  | pre c => simpa [render] using renderAll_table_kept cb c s t hs
  | code lang c =>
      cases hfc : cb.fence lang c with
      | none => simpa [render, hfc] using renderAll_table_kept cb c s t hs
      | some nm =>
          obtain ⟨node, m⟩ := nm
          cases m with
          | false => exact ⟨t, by simpa [render, hfc] using hs⟩
          | true => exact ⟨t, by simpa [render, hfc, lastModified] using hs⟩
  | ol start c => simpa [render] using renderAll_table_kept cb c s t hs
  | ul c => simpa [render] using renderAll_table_kept cb c s t hs
  | li c => simpa [render] using renderAll_table_kept cb c s t hs
  | taskList c => simpa [render] using renderAll_table_kept cb c s t hs
  | emoji name c => simpa [render] using renderAll_table_kept cb c s t hs
  | table align c =>
      simpa [render] using
        renderAll_table_kept cb c { s with table := some ⟨align, 0⟩ } ⟨align, 0⟩ rfl
  | thead c => simpa [render] using renderAll_table_kept cb c s t hs
  | tbody c => simpa [render] using renderAll_table_kept cb c s t hs
  | tr c =>
      simpa [render, hs] using
        renderAll_table_kept cb c { s with table := some { t with index := 0 } } _ rfl
  | th c =>
      simpa [render, hs] using
        renderAll_table_kept cb c { s with table := some { t with index := t.index + 1 } } _ rfl
  | td c =>
      simpa [render, hs] using
        renderAll_table_kept cb c { s with table := some { t with index := t.index + 1 } } _ rfl
  | checkbox checked => exact ⟨t, by simpa [render] using hs⟩
  | hr => exact ⟨t, by simpa [render] using hs⟩
  | fnRef id => exact ⟨t, by simpa [render] using hs⟩
  | fnDef id c => exact ⟨t, by simpa [render] using hs⟩
  | math inline expr => exact ⟨t, by simpa [render] using hs⟩
  | html raw => exact ⟨t, by simpa [render] using hs⟩
  | modified => exact ⟨t, by simpa [render, lastModified] using hs⟩
  | matchText c => simpa [render] using renderAll_table_kept cb c s t hs
  | matchCurrent c => simpa [render] using renderAll_table_kept cb c s t hs
  | matchStart c =>
      simpa [render] using
        renderAll_table_kept cb c { s with matchCount := s.matchCount + 1 } t hs
  | matchCurrentStart c =>
      simpa [render] using
        renderAll_table_kept cb c { s with matchCount := s.matchCount + 1 } t hs
  | unknown kind => exact ⟨t, by simpa [render] using hs⟩

/-- Sibling-list version of `render_table_kept`. -/
theorem renderAll_table_kept (cb : Collab) (es : List Elem) :
    ∀ (s : RState) (t : TableState), s.table = some t →
      ∃ t2, (renderAll cb s es).1.table = some t2 := by
  intro s t hs
  cases es with
  | nil => exact ⟨t, by simpa [renderAll] using hs⟩
  | cons e es =>
      obtain ⟨t1, h1⟩ := render_table_kept cb e s t hs
      obtain ⟨t2, h2⟩ := renderAll_table_kept cb es (render cb s e).1 t1 h1
      exact ⟨t2, by simpa [renderAll] using h2⟩
end

/-- A sibling list renders to exactly one result per sibling. -/
theorem renderAll_length (cb : Collab) :
    ∀ (es : List Elem) (s : RState), (renderAll cb s es).2.length = es.length := by
  intro es
  induction es with
  | nil => intro s; simp [renderAll]
  | cons e es ih => intro s; simp [renderAll, ih]

/-- Results are assembled by position: the i-th output of a sibling list is
the output of rendering the i-th input sibling (from the session state the
preceding siblings left behind). -/
theorem renderAll_get (cb : Collab) :
    ∀ (es : List Elem) (s : RState) (i : Nat) (h : i < es.length),
      (renderAll cb s es).2[i]? =
        some (render cb (renderAll cb s (es.take i)).1 (es.get ⟨i, h⟩)).2 := by
  intro es
  induction es with
  | nil => intro s i h; simp at h
  | cons e es ih =>
      intro s i h
      cases i with
      | zero => simp [renderAll]
      | succ i =>
          have h2 : i < es.length := by simpa using h
          have := ih (render cb s e).1 i h2
          simpa [renderAll] using this

/-- A completed footnote phase emits exactly one list item per collected
definition. -/
theorem renderFootnoteItems_length (cb : Collab) :
    ∀ (l : List (Nat × List Elem)) (s s2 : RState) (items : List RNode),
      renderFootnoteItems cb s l = some (s2, items) → items.length = l.length := by
  intro l
  induction l with
  | nil =>
      intro s s2 items h
      simp [renderFootnoteItems] at h
      simp [← h.2]
  | cons d rest ih =>
      intro s s2 items h
      obtain ⟨id, c⟩ := d
      simp only [renderFootnoteItems] at h
      cases hpb : pushBackref (renderAll cb s c).2 (backref id) with
      | none => simp [hpb] at h
      | some body =>
          rw [hpb] at h
          cases hrest : renderFootnoteItems cb (renderAll cb s c).1 rest with
          | none => simp [hrest] at h
          | some pr =>
              obtain ⟨s3, items3⟩ := pr
              rw [hrest] at h
              simp at h
              have h2 := ih (renderAll cb s c).1 s3 items3 hrest
              simp [← h.2, h2]

/-- In a completed footnote phase the i-th emitted item is a list item
carrying the anchor id of the i-th collected definition: definitions are
emitted in encounter order. -/
theorem renderFootnoteItems_get (cb : Collab) :
    ∀ (l : List (Nat × List Elem)) (s s2 : RState) (items : List RNode),
      renderFootnoteItems cb s l = some (s2, items) →
      ∀ (i : Nat) (h : i < l.length),
        ∃ body, items[i]? =
          some (.elem "li"
            [("id", "user-content-fn-" ++ toString (l.get ⟨i, h⟩).1)] none (.list body)) := by
  intro l
  induction l with
  | nil => intro s s2 items hit i h; simp at h
  | cons d rest ih =>
      intro s s2 items hit i h
      obtain ⟨id, c⟩ := d
      simp only [renderFootnoteItems] at hit
      cases hpb : pushBackref (renderAll cb s c).2 (backref id) with
      | none => simp [hpb] at hit
      | some body =>
          rw [hpb] at hit
          cases hrest : renderFootnoteItems cb (renderAll cb s c).1 rest with
          | none => simp [hrest] at hit
          | some pr =>
              obtain ⟨s3, items3⟩ := pr
              rw [hrest] at hit
              simp at hit
              cases i with
              | zero => exact ⟨body, by simp [← hit.2]⟩
              | succ i =>
                  have h2 : i < rest.length := by simpa using h
                  obtain ⟨body2, hb⟩ := ih (renderAll cb s c).1 s3 items3 hrest i h2
                  exact ⟨body2, by simp [← hit.2, hb]⟩

/-- C1: entering a table replaces the alignment state and resets the
column cursor to zero; entering a row resets the cursor without changing
the alignment sequence; each header/data cell consults the alignment at
the cursor (none when out of range) and then advances the cursor by one
unconditionally; and a table with aligns [left, none, right] holding a
header row of three cells renders cell 0 left-aligned, cell 1 with no
alignment property, cell 2 right-aligned, with a subsequent row reapplying
the same three alignments. -/
theorem c1_table_alignment :
    (∀ (cb : Collab) (s : RState) (align : List TAlign) (c : List Elem),
      render cb s (.table align c) =
        ((renderAll cb { s with table := some ⟨align, 0⟩ } c).1,
         .elem "table" [] none (.list (renderAll cb { s with table := some ⟨align, 0⟩ } c).2))) ∧
    (∀ (cb : Collab) (s : RState) (t : TableState) (c : List Elem), s.table = some t →
      render cb s (.tr c) =
        ((renderAll cb { s with table := some ⟨t.aligns, 0⟩ } c).1,
         .elem "tr" [] none (.list (renderAll cb { s with table := some ⟨t.aligns, 0⟩ } c).2))) ∧
    (∀ (cb : Collab) (s : RState) (t : TableState) (c : List Elem), s.table = some t →
      render cb s (.th c) =
        ((renderAll cb { s with table := some ⟨t.aligns, t.index + 1⟩ } c).1,
         .elem "th" (alignAttr (tableAlignStyle t)) none
           (.list (renderAll cb { s with table := some ⟨t.aligns, t.index + 1⟩ } c).2))) ∧
    (∀ (cb : Collab) (s : RState) (t : TableState) (c : List Elem), s.table = some t →
      render cb s (.td c) =
        ((renderAll cb { s with table := some ⟨t.aligns, t.index + 1⟩ } c).1,
         .elem "td" (alignAttr (tableAlignStyle t)) none
           (.list (renderAll cb { s with table := some ⟨t.aligns, t.index + 1⟩ } c).2))) ∧
    (∀ t : TableState,
      (t.aligns.length ≤ t.index → tableAlignStyle t = none) ∧
      (t.index < t.aligns.length → tableAlignStyle t = t.aligns.getD t.index none)) ∧
    (render noCollab RState.init
      (.table [some .left, none, some .right]
        [.thead [.tr [.th [], .th [], .th []]],
         .tbody [.tr [.td [], .td [], .td []]]]) =
      ({ RState.init with table := some ⟨[some .left, none, some .right], 3⟩ },
       .elem "table" [] none (.list [
         .elem "thead" [] none (.list [
           .elem "tr" [] none (.list [
             .elem "th" [("textAlign", "left")] none (.list []),
             .elem "th" [] none (.list []),
             .elem "th" [("textAlign", "right")] none (.list [])])]),
         .elem "tbody" [] none (.list [
           .elem "tr" [] none (.list [
             .elem "td" [("textAlign", "left")] none (.list []),
             .elem "td" [] none (.list []),
             .elem "td" [("textAlign", "right")] none (.list [])])])]))) := by
  refine ⟨?_, ?_, ?_, ?_, ?_, ?_⟩
  · intro cb s align c; simp [render]
  · intro cb s t c hs; simp [render, hs]
  · intro cb s t c hs; simp [render, hs]
  · intro cb s t c hs; simp [render, hs]
  · intro t
    constructor
    · intro hle; simp [tableAlignStyle, hle]
    · intro hlt; simp [tableAlignStyle, Nat.not_le.mpr hlt]
  · rfl

/-- C1 witness: a header cell rendered under an active one-column left
alignment state consults the alignment, applies it, and advances the
cursor. -/
theorem c1_table_alignment_witness :
    ({ RState.init with table := some (⟨[some Align.left], 0⟩ : TableState) } : RState).table =
      some (⟨[some Align.left], 0⟩ : TableState) ∧
    render noCollab { RState.init with table := some (⟨[some Align.left], 0⟩ : TableState) } (.th []) =
      ({ RState.init with table := some (⟨[some Align.left], 1⟩ : TableState) },
       .elem "th" [("textAlign", "left")] none (.list [])) :=
  ⟨rfl, by
    have h := c1_table_alignment.2.2.1 noCollab
      { RState.init with table := some (⟨[some Align.left], 0⟩ : TableState) }
      ⟨[some Align.left], 0⟩ [] rfl
    simpa [renderAll, alignAttr, tableAlignStyle] using h⟩

/-- C3 counterexample: at the alignment sequence [left] and cursor 1 the
legacy lookup rejects (returns no alignment) although the cursor is not
within bounds, refuting the claimed biconditional for the legacy
variant. -/
theorem c3_counterexample :
    ¬ ((ParseTreeRenderer.tableAlign (some ⟨[some Align.left], 1⟩) = none) ↔
        1 < ([some Align.left] : List TAlign).length) := by
  decide

/-- C3 amended: the legacy lookup never yields an alignment (it returns
none whenever the cursor is at most the sequence length, hence for every
in-bounds cursor, and past the length no stored alignment exists), while
the asynchronous lookup rejects every out-of-bounds cursor and yields an
alignment only for an in-bounds cursor — the canonical behavior holds of
the asynchronous variant. -/
theorem c3_tablealign_amended :
    (∀ t : TableState, ParseTreeRenderer.tableAlign (some t) = none) ∧
    (ParseTreeRenderer.tableAlign none = none) ∧
    (∀ t : TableState, t.aligns.length ≤ t.index → tableAlignStyle t = none) ∧
    (∀ (t : TableState) (a : Align), tableAlignStyle t = some a →
      t.index < t.aligns.length) := by
  refine ⟨?_, rfl, ?_, ?_⟩
  · intro t
    unfold ParseTreeRenderer.tableAlign
    by_cases hge : t.aligns.length ≥ t.index
    · simp [hge]
    · have hlt : t.aligns.length ≤ t.index := le_of_lt (Nat.lt_of_not_ge hge)
      simp [hge, List.getD, List.getElem?_eq_none hlt]
  · intro t hle; simp [tableAlignStyle, hle]
  · intro t a ha
    by_contra hge
    have hle : t.aligns.length ≤ t.index := Nat.le_of_not_lt hge
    simp [tableAlignStyle, hle] at ha

/-- C3 witness: the legacy lookup rejects the in-bounds cursor 0 of the
one-element alignment sequence [left]. -/
theorem c3_tablealign_amended_witness :
    ParseTreeRenderer.tableAlign (some ⟨[some Align.left], 0⟩) = none :=
  c3_tablealign_amended.1 ⟨[some Align.left], 0⟩

/-- C4: with a declining fence collaborator the final match count of a
session equals the number of match-start and match-current-start nodes the
pass encounters (in the main tree plus the collected footnote bodies);
match and match-current nodes never increment the counter, the two start
kinds increment it exactly once before rendering their children, and the
sibling sequence [match-start, match, match-current-start, match] yields a
match count of exactly 2. -/
theorem c4_match_counting :
    (∀ (cb : Collab), (∀ l c, cb.fence l c = none) →
      ∀ (tree : List Elem) (res : MarkdownResult), run cb tree = some res →
      res.matchCount = startsList tree + startsDefs (fnCollectList tree)) ∧
    (∀ (cb : Collab) (s : RState) (c : List Elem),
      (render cb s (.matchText c)).1.matchCount = (renderAll cb s c).1.matchCount) ∧
    (∀ (cb : Collab) (s : RState) (c : List Elem),
      (render cb s (.matchCurrent c)).1.matchCount = (renderAll cb s c).1.matchCount) ∧
    (∀ (cb : Collab) (s : RState) (c : List Elem),
      (render cb s (.matchStart c)).1 =
        (renderAll cb { s with matchCount := s.matchCount + 1 } c).1) ∧
    (∀ (cb : Collab) (s : RState) (c : List Elem),
      (render cb s (.matchCurrentStart c)).1 =
        (renderAll cb { s with matchCount := s.matchCount + 1 } c).1) ∧
    (Option.map MarkdownResult.matchCount
      (run noCollab [.matchStart [], .matchText [], .matchCurrentStart [], .matchText []]) =
      some 2) := by
  refine ⟨?_, ?_, ?_, ?_, ?_, rfl⟩
  · intro cb hf tree res hres; exact run_matchCount cb hf tree res hres
  · intro cb s c; simp [render]
  · intro cb s c; simp [render]
  · intro cb s c; simp [render]
  · intro cb s c; simp [render]

/-- The tree used to exercise the count law: start nodes both in the main
tree and inside a deferred footnote body. -/
def countWitnessTree : List Elem := [.matchStart [], .fnDef 1 [.matchCurrentStart []]]

/-- The completed session result the interpreter produces on
`countWitnessTree`. -/
def countWitnessResult : MarkdownResult :=
  { root := .fragment [
      .elem "span" [("className", "search-text-start")] none (.list []),
      .rnull,
      .elem "section" [("className", "footnotes")] none (.list [
        .elem "h2" [("id", "footnote-label")] none (.single (.text "Footnotes")),
        .elem "ol" [] none (.list [
          .elem "li" [("id", "user-content-fn-1")] none (.list [
            .elem "span" [("className", "search-text-current-start")] none (.list [
              .elem "a"
                [("href", "#user-content-fnref-1"), ("aria-label", "Back to content")]
                none (.single (.text "↩"))])])])])]
    lastModified := none
    matchCount := 2 }

/-- C4 witness: the count law applied to `countWitnessTree`, whose session
completes with the result evaluated above. -/
theorem c4_match_counting_witness :
    run noCollab countWitnessTree = some countWitnessResult ∧
    countWitnessResult.matchCount =
      startsList countWitnessTree + startsDefs (fnCollectList countWitnessTree) :=
  ⟨rfl, c4_match_counting.1 noCollab (fun _ _ => rfl) countWitnessTree countWitnessResult rfl⟩

/-- C5: a code fence whose collaborator declines falls back to a plain
code block over its rendered children (leaving the last-modified handle as
the children left it, hence unchanged for a raw-text fence body); a
collaborator result flagged modified yields a marker node immediately
preceding the collaborator node, with the session handle referencing that
marker; an unmodified collaborator result inserts no marker and leaves the
state, the handle included, unchanged. -/
theorem c5_fence_modification :
    (∀ (cb : Collab) (s : RState) (lang : Option String) (c : List Elem),
      cb.fence lang c = none →
        render cb s (.code lang c) =
          ((renderAll cb s c).1, .elem "code" [] none (.list (renderAll cb s c).2))) ∧
    (∀ (cb : Collab) (s : RState) (lang : Option String) (str : String),
      cb.fence lang [.text str] = none →
        render cb s (.code lang [.text str]) =
          (s, .elem "code" [] none (.list [.text str]))) ∧
    (∀ (cb : Collab) (s : RState) (lang : Option String) (c : List Elem) (node : RNode),
      cb.fence lang c = some (node, true) →
        render cb s (.code lang c) =
          ({ s with lastModifiedRef := some s.nextRef, nextRef := s.nextRef + 1 },
           .fragment [markerNode s.nextRef, node]) ∧
        (render cb s (.code lang c)).1.lastModifiedRef = some s.nextRef) ∧
    (∀ (cb : Collab) (s : RState) (lang : Option String) (c : List Elem) (node : RNode),
      cb.fence lang c = some (node, false) →
        render cb s (.code lang c) = (s, node)) := by
  refine ⟨?_, ?_, ?_, ?_⟩
  · intro cb s lang c hfc; simp [render, hfc]
  · intro cb s lang str hfc; simp [render, hfc, renderAll]
  · intro cb s lang c node hfc
    constructor
    · simp [render, hfc, lastModified]
    · simp [render, hfc, lastModified]
  · intro cb s lang c node hfc; simp [render, hfc]

/-- A collaborator whose fence renderer reports a modified result. -/
def modCollabTrue : Collab :=
  { fence := fun _ _ => some (.text "diagram", true), mathjax := fun _ _ => .rnull }

/-- C5 witness: a fence rendered by a modified-reporting collaborator from
the fresh session: the output is the marker (ref 0) followed by the
collaborator node, and the handle references ref 0. -/
theorem c5_fence_modification_witness :
    modCollabTrue.fence none [] = some (.text "diagram", true) ∧
    render modCollabTrue RState.init (.code none []) =
      ({ RState.init with lastModifiedRef := some 0, nextRef := 1 },
       .fragment [markerNode 0, .text "diagram"]) :=
  ⟨rfl, by
    have h := (c5_fence_modification.2.2.1 modCollabTrue RState.init none [] (.text "diagram") rfl).1
    simpa [RState.init] using h⟩

/-- C6 counterexample: a collected footnote definition whose body is a
single footnote reference is never emitted at all — the rendered body ends
in a sup element with a bare single child, the back-reference push throws
a TypeError, and the session rejects with no output — refuting the
unconditional claim that every collected definition is emitted exactly
once. -/
theorem c6_counterexample :
    (renderAll noCollab RState.init [.fnDef 1 [.fnRef 2]]).1.footNotes =
      [(1, [.fnRef 2])] ∧
    run noCollab [.fnDef 1 [.fnRef 2]] = none :=
  ⟨rfl, rfl⟩

/-- C6 amended: a footnote definition contributes no output at its
original position (it only appends itself to the collector); with no
collected definitions the footnote phase contributes nothing; and whenever
the footnote phase completes — that is, the back-reference push succeeds
for every collected body — it emits all collected definitions exactly
once, in encounter order, in a single section that the session root places
strictly after the entire main output (the session rejecting instead
exactly when the phase does, which happens when a collected body ends in
an element with bare single-child props, on which the push throws). -/
theorem c6_footnote_deferral :
    (∀ (cb : Collab) (s : RState) (id : Nat) (c : List Elem),
      render cb s (.fnDef id c) =
        ({ s with footNotes := s.footNotes ++ [(id, c)] }, .rnull)) ∧
    (∀ (cb : Collab) (tree : List Elem) (f1 : RState) (fnode : RNode),
      renderFootnotes cb (renderAll cb RState.init tree).1 = some (f1, fnode) →
      run cb tree =
        some { root := .fragment ((renderAll cb RState.init tree).2 ++ [fnode])
               lastModified := f1.lastModifiedRef
               matchCount := f1.matchCount }) ∧
    (∀ (cb : Collab) (tree : List Elem),
      renderFootnotes cb (renderAll cb RState.init tree).1 = none →
      run cb tree = none) ∧
    (∀ (cb : Collab) (s : RState), s.footNotes = [] →
      renderFootnotes cb s = some (s, .rnull)) ∧
    (∀ (cb : Collab) (s : RState) (d : Nat × List Elem) (ds : List (Nat × List Elem))
        (s2 : RState) (items : List RNode),
      s.footNotes = d :: ds →
      renderFootnoteItems cb s (d :: ds) = some (s2, items) →
      renderFootnotes cb s =
        some (s2, .elem "section" [("className", "footnotes")] none (.list [
          .elem "h2" [("id", "footnote-label")] none (.single (.text "Footnotes")),
          .elem "ol" [] none (.list items)]))) ∧
    (∀ (cb : Collab) (l : List (Nat × List Elem)) (s s2 : RState) (items : List RNode),
      renderFootnoteItems cb s l = some (s2, items) → items.length = l.length) ∧
    (∀ (cb : Collab) (l : List (Nat × List Elem)) (s s2 : RState) (items : List RNode),
      renderFootnoteItems cb s l = some (s2, items) →
      ∀ (i : Nat) (h : i < l.length),
        ∃ body, items[i]? =
          some (.elem "li"
            [("id", "user-content-fn-" ++ toString (l.get ⟨i, h⟩).1)] none (.list body))) ∧
    (∀ (cb : Collab) (s : RState) (id : Nat) (c : List Elem)
        (rest : List (Nat × List Elem)),
      pushBackref (renderAll cb s c).2 (backref id) = none →
      renderFootnoteItems cb s ((id, c) :: rest) = none) := by
  refine ⟨?_, ?_, ?_, ?_, ?_, ?_, ?_, ?_⟩
  · intro cb s id c; simp [render]
  · intro cb tree f1 fnode h; simp [run, h]
  · intro cb tree h; simp [run, h]
  · intro cb s h; simp [renderFootnotes, h]
  · intro cb s d ds s2 items h hit; simp [renderFootnotes, h, hit]
  · intro cb l s s2 items h; exact renderFootnoteItems_length cb l s s2 items h
  · intro cb l s s2 items h i hi; exact renderFootnoteItems_get cb l s s2 items h i hi
  · intro cb s id c rest h; simp [renderFootnoteItems, h]

/-- C6 witness: a session that collected one text-bodied definition (whose
back-reference push succeeds) emits the single trailing section with its
one list item. -/
theorem c6_footnote_deferral_witness :
    ({ RState.init with footNotes := [(1, [.text "note"])] } : RState).footNotes =
      (1, [.text "note"]) :: [] ∧
    renderFootnoteItems noCollab
        { RState.init with footNotes := [(1, [.text "note"])] } [(1, [.text "note"])] =
      some ({ RState.init with footNotes := [(1, [.text "note"])] },
        [.elem "li" [("id", "user-content-fn-1")] none (.list [
          .text "note",
          .elem "a"
            [("href", "#user-content-fnref-1"), ("aria-label", "Back to content")]
            none (.single (.text "↩"))])]) ∧
    renderFootnotes noCollab { RState.init with footNotes := [(1, [.text "note"])] } =
      some ({ RState.init with footNotes := [(1, [.text "note"])] },
       .elem "section" [("className", "footnotes")] none (.list [
         .elem "h2" [("id", "footnote-label")] none (.single (.text "Footnotes")),
         .elem "ol" [] none (.list [
           .elem "li" [("id", "user-content-fn-1")] none (.list [
             .text "note",
             .elem "a"
               [("href", "#user-content-fnref-1"), ("aria-label", "Back to content")]
               none (.single (.text "↩"))])])])) :=
  ⟨rfl, rfl,
    c6_footnote_deferral.2.2.2.2.1 noCollab
      { RState.init with footNotes := [(1, [.text "note"])] }
      (1, [.text "note"]) []
      { RState.init with footNotes := [(1, [.text "note"])] }
      [.elem "li" [("id", "user-content-fn-1")] none (.list [
        .text "note",
        .elem "a"
          [("href", "#user-content-fnref-1"), ("aria-label", "Back to content")]
          none (.single (.text "↩"))])]
      rfl rfl⟩

/-- C8: an element of an unrecognized kind contributes empty output and
appends one diagnostic to the log, in both variants, with the rest of the
state untouched; the log is write-only, so the diagnostic cannot affect
the rendering of siblings or of the remainder of the pass; concretely, a
bogus-kind element between two text siblings leaves both rendered as
usual. -/
theorem c8_unknown_kind :
    (∀ (cb : Collab) (s : RState) (k : String),
      render cb s (.unknown k) =
        ({ s with errors := s.errors ++ ["Unknown render tree element: " ++ k] },
         .rnull)) ∧
    (∀ (cb : Collab) (e : Elem) (s s1 : RState), s.core = s1.core →
      (render cb s e).2 = (render cb s1 e).2 ∧
      (render cb s e).1.core = (render cb s1 e).1.core) ∧
    (∀ (ph : String → List DNode) (s : ParseTreeRenderer.LState) (k : String),
      ParseTreeRenderer.render ph s (.unknown k) =
        ({ s with errors := s.errors ++ ["Unknown parse tree element: " ++ k] }, [])) ∧
    (renderAll noCollab RState.init [.text "x", .unknown "bogus-future-kind", .text "y"] =
      ({ RState.init with errors := ["Unknown render tree element: bogus-future-kind"] },
       [.text "x", .rnull, .text "y"])) := by
  refine ⟨?_, ?_, ?_, ?_⟩
  · intro cb s k; simp [render]
  · intro cb e s s1 h; exact render_core_congr cb e s s1 h
  · intro ph s k; simp [ParseTreeRenderer.render]
  · simp [renderAll, render, RState.init]

/-- C8 witness: two fresh sessions differing only in the diagnostics log
render a match-start element identically. -/
theorem c8_unknown_kind_witness :
    (RState.init.core =
      ({ RState.init with
          errors := ["Unknown render tree element: bogus-future-kind"] } : RState).core) ∧
    ((render noCollab RState.init (.matchStart [.text "z"])).2 =
      (render noCollab
        { RState.init with errors := ["Unknown render tree element: bogus-future-kind"] }
        (.matchStart [.text "z"])).2 ∧
     (render noCollab RState.init (.matchStart [.text "z"])).1.core =
      (render noCollab
        { RState.init with errors := ["Unknown render tree element: bogus-future-kind"] }
        (.matchStart [.text "z"])).1.core) :=
  ⟨rfl, c8_unknown_kind.2.1 noCollab (.matchStart [.text "z"]) RState.init
    { RState.init with errors := ["Unknown render tree element: bogus-future-kind"] } rfl⟩

/-- C9: sibling results are assembled by position: a sibling list renders
to exactly one result per sibling, and the i-th output equals the output
of rendering the i-th input sibling from the state the preceding siblings
left behind, so output order always equals input order. -/
theorem c9_order_preservation :
    (∀ (cb : Collab) (s : RState) (es : List Elem),
      (renderAll cb s es).2.length = es.length) ∧
    (∀ (cb : Collab) (s : RState) (es : List Elem) (i : Nat) (h : i < es.length),
      (renderAll cb s es).2[i]? =
        some (render cb (renderAll cb s (es.take i)).1 (es.get ⟨i, h⟩)).2) :=
  ⟨fun cb s es => renderAll_length cb es s,
   fun cb s es i h => renderAll_get cb es s i h⟩

/-- C9 witness: in a two-sibling list the second output position holds the
rendering of the second input sibling. -/
theorem c9_order_preservation_witness :
    (renderAll noCollab RState.init [.text "a", .text "b"]).2[1]? = some (.text "b") := by
  have h := c9_order_preservation.2 noCollab RState.init [.text "a", .text "b"] 1 (by decide)
  simpa [render, renderAll] using h

/-- C10: once a table has been entered the alignment state is never
cleared for the remainder of the pass; a header or data cell always
consults the current alignment state and advances the cursor when any
table state is present — even outside any table subtree — and renders
without consulting alignment only when no table was ever entered;
concretely, a header cell placed after a complete table subtree picks up
the lingering alignment at the lingering cursor. -/
theorem c10_table_state_persistence :
    (∀ (cb : Collab) (e : Elem) (s : RState) (t : TableState), s.table = some t →
      ∃ t2, (render cb s e).1.table = some t2) ∧
    (∀ (cb : Collab) (s : RState) (t : TableState) (c : List Elem), s.table = some t →
      render cb s (.th c) =
        ((renderAll cb { s with table := some ⟨t.aligns, t.index + 1⟩ } c).1,
         .elem "th" (alignAttr (tableAlignStyle t)) none
           (.list (renderAll cb { s with table := some ⟨t.aligns, t.index + 1⟩ } c).2))) ∧
    (∀ (cb : Collab) (s : RState) (t : TableState) (c : List Elem), s.table = some t →
      render cb s (.td c) =
        ((renderAll cb { s with table := some ⟨t.aligns, t.index + 1⟩ } c).1,
         .elem "td" (alignAttr (tableAlignStyle t)) none
           (.list (renderAll cb { s with table := some ⟨t.aligns, t.index + 1⟩ } c).2))) ∧
    (∀ (cb : Collab) (s : RState) (c : List Elem), s.table = none →
      render cb s (.th c) =
        ((renderAll cb s c).1, .elem "th" [] none (.list (renderAll cb s c).2))) ∧
    (renderAll noCollab RState.init
        [.table [some .left, some .right] [.tr [.th []]], .th []] =
      ({ RState.init with table := some ⟨[some .left, some .right], 2⟩ },
       [.elem "table" [] none (.list [
          .elem "tr" [] none (.list [
            .elem "th" [("textAlign", "left")] none (.list [])])]),
        .elem "th" [("textAlign", "right")] none (.list [])])) := by
  refine ⟨?_, ?_, ?_, ?_, rfl⟩
  · intro cb e s t hs; exact render_table_kept cb e s t hs
  · intro cb s t c hs; simp [render, hs]
  · intro cb s t c hs; simp [render, hs]
  · intro cb s c hs; simp [render, hs]

/-- C10 witness: rendering a text leaf in a session holding table state
leaves some table state in place. -/
theorem c10_table_state_persistence_witness :
    ({ RState.init with table := some (⟨[], 0⟩ : TableState) } : RState).table =
      some (⟨[], 0⟩ : TableState) ∧
    ∃ t2, (render noCollab { RState.init with table := some (⟨[], 0⟩ : TableState) }
      (.text "x")).1.table = some t2 :=
  ⟨rfl, c10_table_state_persistence.1 noCollab (.text "x")
    { RState.init with table := some (⟨[], 0⟩ : TableState) } ⟨[], 0⟩ rfl⟩

/-- C2: the asynchronous variant renders the spec example footnote
(id 1, body [text "note"]) with the body text followed by a back-reference
targeting the anchor (href "#user-content-fnref-1"), body anchor id
user-content-fn-1 and section heading anchor footnote-label, and renders a
footnote reference as a superscript link to user-content-fn-1 carrying id
user-content-fnref-1 with aria-describedby footnote-label; the legacy
synchronous variant, however, writes the back-reference href as
"user-content-fnref-1" without the leading "#" — a relative URL, not the
claimed anchor target — and on the text-only spec example it throws while
appending the back-reference to a Text node. -/
theorem c2_footnote_anchor_theorem :
    renderFootnotes noCollab { RState.init with footNotes := [(1, [.text "note"])] } =
      some ({ RState.init with footNotes := [(1, [.text "note"])] },
       .elem "section" [("className", "footnotes")] none (.list [
         .elem "h2" [("id", "footnote-label")] none (.single (.text "Footnotes")),
         .elem "ol" [] none (.list [
           .elem "li" [("id", "user-content-fn-1")] none (.list [
             .text "note",
             .elem "a"
               [("href", "#user-content-fnref-1"), ("aria-label", "Back to content")]
               none (.single (.text "↩"))])])])) ∧
    render noCollab RState.init (.fnRef 1) =
      (RState.init, .elem "sup" [] none (.single (
        .elem "a"
          [("href", "#user-content-fn-1"), ("id", "user-content-fnref-1"),
           ("aria-describedby", "footnote-label")]
          none (.single (.text "1"))))) ∧
    ParseTreeRenderer.endRender phEmpty
        { ParseTreeRenderer.LState.init with footNotes := [(1, [.p [.text "note"]])] } =
      some ({ ParseTreeRenderer.LState.init with footNotes := [(1, [.p [.text "note"]])] },
        [.delem "section" [("className", "footnotes")] [
          .delem "h2" [("id", "footnote-label"), ("className", "sr-only")]
            [.dtext "Footnotes"],
          .delem "ol" [] [
            .delem "li" [("id", "user-content-fn-1")] [
              .delem "p" [] [
                .dtext "note",
                .delem "a"
                  [("href", "user-content-fnref-1"),
                   ("className", "data-footnote-backref"),
                   ("aria-label", "Back to content")]
                  [.dtext "↩"]]]]]]) ∧
    ("user-content-fnref-1" : String) ≠ "#user-content-fnref-1" ∧
    ParseTreeRenderer.endRender phEmpty
        { ParseTreeRenderer.LState.init with footNotes := [(1, [.text "note"])] } = none := by
  refine ⟨rfl, rfl, rfl, by decide, rfl⟩

/-- C7: a table-body node rendered by the legacy synchronous variant
produces an element tagged thead (the source calls
document.createElement with "thead" under the tbody case), while the
asynchronous variant produces a tbody element with the children rendered
in order. -/
theorem c7_container_kinds_theorem :
    ParseTreeRenderer.render phEmpty ParseTreeRenderer.LState.init (.tbody [.tr []]) =
      (ParseTreeRenderer.LState.init, [.delem "thead" [] [.delem "tr" [] []]]) ∧
    render noCollab RState.init (.tbody [.tr []]) =
      (RState.init, .elem "tbody" [] none (.list [.elem "tr" [] none (.list [])])) ∧
    ("thead" : String) ≠ "tbody" := by
  refine ⟨rfl, rfl, by decide⟩
